import Mathlib

/-!
Shallow embedding of the warmware-db in-memory relational engine
(btree index, executor, parser value grammar) and proofs about it.

Source layout: the B-tree lives in `btree.ts` (insertIntoIndex, searchIndex,
removeFromIndex, rebuildIndex), the executor in `engine.ts` (RDBMSEngine),
the parser in `parser.ts`, shared types in `types.ts`.

Modelling conventions:
  * JS `number` cell values are modelled as `Int`.  The engine's own value
    model is integers, strings, booleans, timestamps and null; every value
    reaching a table travels through `parseValue`, and all claims under
    study involve integer numerics only.
  * A JS object used as a row is an insertion-ordered string-keyed map; we
    model it as an association list with unique keys kept in insertion
    order (`rowSet` overwrites in place, preserving the original position,
    exactly as JS property update does).
  * A missing key reads as JS `undefined`; we model reads as `Option Value`
    with `none` for `undefined`.
  * `String.localeCompare` is modelled as code-point comparison.  The spec
    (section 3) fixes the collation as an implementation policy; no claim
    below depends on the particular collation of distinct strings.
  * `Date` (timestamp) cell values cannot be produced by `parseValue`, so
    they are unreachable through the `execute` surface; the `timestamp`
    constructor is kept for completeness of the value model.
-/

namespace WDB

/-- The tagged cell value union `RowValue` of types.ts:
`string | number | boolean | Date | null`.  Numbers are modelled as `Int`. -/
inductive Value where
  | int (n : Int)
  | str (s : String)
  | bool (b : Bool)
  | timestamp (t : Int)
  | null
deriving DecidableEq, Repr

/-- Kind tag of a value (the JS `typeof` / instanceof discrimination). -/
inductive ValueKind where
  | intK | strK | boolK | timestampK | nullK
deriving DecidableEq, Repr

/-- Kind of a cell value. -/
def valueKind : Value → ValueKind
  | .int _ => .intK
  | .str _ => .strK
  | .bool _ => .boolK
  | .timestamp _ => .timestampK
  | .null => .nullK

/-- JS strict equality `===` on cell values: same kind and same payload.
`null === null` is true in JS.  (On `Date` objects the source compares
references; such comparisons are unreachable from the parser, see header.) -/
def jsEq : Value → Value → Bool
  | .int a, .int b => a == b
  | .str a, .str b => a == b
  | .bool a, .bool b => a == b
  | .timestamp a, .timestamp b => a == b
  | .null, .null => true
  | _, _ => false

/-- JS strict equality where either side may be `undefined` (a missing
object key).  `undefined === undefined` is true; `undefined === v` is false
for every value `v`, including `null`. -/
def jsEqOpt : Option Value → Option Value → Bool
  | none, none => true
  | some a, some b => jsEq a b
  | _, _ => false

/-- Decimal string rendering JS gives to our values under `String(x)`. -/
def jsString : Value → String
  | .int n => toString n
  | .str s => s
  | .bool b => if b then "true" else "false"
  | .timestamp t => "timestamp " ++ toString t
  | .null => "null"

/-- Number() on the integer fragment: optional sign followed by decimal
digits; the empty (or all-trimmed) string converts to 0; anything else is
NaN, modelled as `none`.  (Host floats, hex and exponent forms are outside
the engine's value model; no claim depends on them.) -/
def numParse (s : String) : Option Int :=
  let cs := s.data
  if cs.isEmpty then some 0
  else
    let (sign, digits) :=
      match cs with
      | '-' :: rest => ((-1 : Int), rest)
      | '+' :: rest => ((1 : Int), rest)
      | _ => ((1 : Int), cs)
    if digits.isEmpty then none
    else if digits.all (·.isDigit) then
      some (sign * (digits.foldl (fun acc c => acc * 10 + (c.toNat - '0'.toNat)) (0 : Nat) : Nat))
    else none

/-- ToNumber coercion used by the JS relational operators; `none` is NaN.
`null` coerces to 0, booleans to 0/1, strings parse or give NaN, a Date
gives its epoch value. -/
def toNumber : Value → Option Int
  | .int n => some n
  | .str s => numParse s
  | .bool b => some (if b then 1 else 0)
  | .timestamp t => some t
  | .null => some 0

/-- JS `<` on cell values: two strings compare lexicographically, anything
else coerces both sides with ToNumber and any NaN makes the result false. -/
def jsLt : Value → Value → Bool
  | .str a, .str b => a < b
  | a, b =>
    match toNumber a, toNumber b with
    | some x, some y => x < y
    | _, _ => false

/-- JS `<=`: string pair compares lexicographically, otherwise numeric
coercion with NaN giving false. -/
def jsLe : Value → Value → Bool
  | .str a, .str b => a ≤ b
  | a, b =>
    match toNumber a, toNumber b with
    | some x, some y => x ≤ y
    | _, _ => false

/-- JS `>` is the mirror of `<`. -/
def jsGt (a b : Value) : Bool := jsLt b a

/-- JS `>=` is the mirror of `<=`. -/
def jsGe (a b : Value) : Bool := jsLe b a

/-- compareValues of btree.ts: nulls first and equal to each other, two
numbers numerically, two Dates chronologically, anything else by the
string rendering (localeCompare, modelled as code-point order). -/
def compareValues (a b : Value) : Int :=
  match a, b with
  | .null, .null => 0
  | .null, _ => -1
  | _, .null => 1
  | .int x, .int y => x - y
  | .timestamp x, .timestamp y => x - y
  | x, y =>
    match compare (jsString x) (jsString y) with
    | .lt => -1
    | .eq => 0
    | .gt => 1

/-- A row: insertion-ordered association list with unique keys. -/
abbrev Row := List (String × Value)

/-- Property read `row[key]`; `none` models JS `undefined`. -/
def rowGet : Row → String → Option Value
  | [], _ => none
  | (k, v) :: rest, key => if k = key then some v else rowGet rest key

/-- The `key in row` test. -/
def rowHas (r : Row) (key : String) : Bool := (rowGet r key).isSome

/-- Property write `row[key] = v`: overwrite in place when present
(JS keeps the original insertion position), append otherwise. -/
def rowSet : Row → String → Value → Row
  | [], key, v => [(key, v)]
  | (k, w) :: rest, key, v =>
    if k = key then (k, v) :: rest else (k, w) :: rowSet rest key v

/-- Insert an element at position `i` of a list (`splice(i, 0, a)`). -/
def listInsertAt (l : List α) (i : Nat) (a : α) : List α :=
  l.take i ++ a :: l.drop i

/-- Apply `f` to the element at position `i`, when present. -/
def listModify : List α → Nat → (α → α) → List α
  | [], _, _ => []
  | x :: rest, 0, f => f x :: rest
  | x :: rest, n + 1, f => x :: listModify rest n f

/-- B-tree node of types.ts: up to `ORDER - 1` keys, each with its posting
list of row positions, and up to `ORDER` children; leaves are flagged. -/
inductive BTreeNode where
  | mk (keys : List Value) (rowIndices : List (List Nat)) (children : List BTreeNode)
      (isLeaf : Bool)

/-- Keys held by a node. -/
def BTreeNode.keys : BTreeNode → List Value
  | .mk k _ _ _ => k

/-- Posting lists held by a node, positionally matching `keys`. -/
def BTreeNode.rowIndices : BTreeNode → List (List Nat)
  | .mk _ r _ _ => r

/-- Children of a node. -/
def BTreeNode.children : BTreeNode → List BTreeNode
  | .mk _ _ c _ => c

/-- Leaf flag of a node. -/
def BTreeNode.isLeaf : BTreeNode → Bool
  | .mk _ _ _ l => l

/-- The order constant of btree.ts (max children per node). -/
def ORDER : Nat := 4

/-- createNode of btree.ts. -/
def createNode (isLeaf : Bool) : BTreeNode := .mk [] [] [] isLeaf

/-- BTreeIndex of types.ts: a named root with a uniqueness toggle. -/
structure BTreeIndex where
  columnName : String
  root : BTreeNode
  unique : Bool

/-- createBTreeIndex of btree.ts: fresh leaf root. -/
def createBTreeIndex (columnName : String) (unique : Bool) : BTreeIndex :=
  { columnName := columnName, root := createNode true, unique := unique }

mutual

/-- Node count of a tree, used as a fuel bound dominating the height. -/
def nodeSize : BTreeNode → Nat
  | .mk _ _ children _ => 1 + nodeListSize children

/-- Total node count of a forest. -/
def nodeListSize : List BTreeNode → Nat
  | [] => 0
  | c :: rest => nodeSize c + nodeListSize rest

end

/-- Result of the forward scan `while (i < keys.length && compareValues(value,
keys[i]) > 0) i++` used by search and removal. -/
def seekLow (keys : List Value) (value : Value) : Nat :=
  (keys.takeWhile (fun k => decide (0 < compareValues value k))).length

/-- Result of the backward scan `i = keys.length - 1; while (i >= 0 &&
compareValues(value, keys[i]) < 0) i--` used by insertion; may be `-1`. -/
def seekHigh (keys : List Value) (value : Value) : Int :=
  (keys.length : Int) - 1 -
    ((keys.reverse.takeWhile (fun k => decide (compareValues value k < 0))).length : Int)

/-- splitChild of btree.ts: hand the upper half of a full child to a fresh
sibling, promote the median key into the parent at `childIndex`. -/
def splitChild (parent : BTreeNode) (childIndex : Nat) : BTreeNode :=
  match parent with
  | .mk pk pr pc pl =>
    match pc.getD childIndex (createNode true) with
    | .mk ck cr cc cl =>
      let mid := (ORDER - 1) / 2
      let newKeys := ck.drop (mid + 1)
      let newRows := cr.drop (mid + 1)
      let keptKeys := ck.take (mid + 1)
      let keptRows := cr.take (mid + 1)
      let newChildren := if cl then [] else cc.drop (mid + 1)
      let keptChildren := if cl then cc else cc.take (mid + 1)
      let midKey := keptKeys.getLastD Value.null
      let midRowIndices := keptRows.getLastD []
      let childKept : BTreeNode := .mk keptKeys.dropLast keptRows.dropLast keptChildren cl
      let newNode : BTreeNode := .mk newKeys newRows newChildren cl
      let pc' := listInsertAt (pc.set childIndex childKept) (childIndex + 1) newNode
      .mk (listInsertAt pk childIndex midKey) (listInsertAt pr childIndex midRowIndices)
        pc' pl

/-- insertNonFull of btree.ts.  The source recursion descends one level per
call; `fuel` bounds the depth, and callers pass a bound that dominates the
tree height, so the out-of-fuel branch is never taken on reachable trees. -/
def insertNonFull : Nat → BTreeNode → Value → Nat → BTreeNode
  | 0, node, _, _ => node
  | fuel + 1, node, value, rowIndex =>
    match node with
    | .mk keys rowIndices children leaf =>
      if leaf then
        let i := seekHigh keys value
        if decide (0 ≤ i) && (compareValues value (keys.getD i.toNat Value.null) == 0) then
          .mk keys (listModify rowIndices i.toNat (fun l => l ++ [rowIndex])) children leaf
        else
          .mk (listInsertAt keys (i + 1).toNat value)
            (listInsertAt rowIndices (i + 1).toNat [rowIndex]) children leaf
      else
        let ci := (seekHigh keys value + 1).toNat
        let (node', ci') :=
          if (children.getD ci (createNode true)).keys.length = ORDER - 1 then
            let parent' := splitChild (BTreeNode.mk keys rowIndices children leaf) ci
            if decide (0 < compareValues value (parent'.keys.getD ci Value.null)) then
              (parent', ci + 1)
            else (parent', ci)
          else (BTreeNode.mk keys rowIndices children leaf, ci)
        .mk node'.keys node'.rowIndices
          (listModify node'.children ci' (fun ch => insertNonFull fuel ch value rowIndex))
          node'.isLeaf

/-- searchNode of btree.ts: standard descent by `compareValues`, returning
a copy of the posting list on a hit.  Fuel as in `insertNonFull`. -/
def searchNode : Nat → BTreeNode → Value → List Nat
  | 0, _, _ => []
  | fuel + 1, .mk keys rowIndices children leaf, value =>
    let i := seekLow keys value
    if decide (i < keys.length) && (compareValues value (keys.getD i Value.null) == 0) then
      rowIndices.getD i []
    else if leaf then []
    else searchNode fuel (children.getD i (createNode true)) value

/-- searchIndex of btree.ts. -/
def searchIndex (index : BTreeIndex) (value : Value) : List Nat :=
  searchNode (nodeSize index.root + 1) index.root value

/-- insertIntoIndex of btree.ts: a unique index with an existing posting
for the value rejects with no state change; otherwise a full root is split
under a fresh root before the non-full insertion runs. -/
def insertIntoIndex (index : BTreeIndex) (value : Value) (rowIndex : Nat) :
    BTreeIndex × Bool :=
  if index.unique && !(searchIndex index value).isEmpty then
    (index, false)
  else if index.root.keys.length = ORDER - 1 then
    let newRoot0 : BTreeNode := .mk [] [] [index.root] false
    let newRoot1 := splitChild newRoot0 0
    ({ index with root := insertNonFull (nodeSize newRoot1 + 1) newRoot1 value rowIndex }, true)
  else
    ({ index with root := insertNonFull (nodeSize index.root + 1) index.root value rowIndex },
      true)

/-- removeFromNode of btree.ts: drop `rowIndex` from the posting list of
`value`; a posting list that empties takes its key with it.  No
rebalancing. -/
def removeFromNode : Nat → BTreeNode → Value → Nat → BTreeNode
  | 0, node, _, _ => node
  | fuel + 1, .mk keys rowIndices children leaf, value, rowIndex =>
    let i := seekLow keys value
    if decide (i < keys.length) && (compareValues value (keys.getD i Value.null) == 0) then
      let lst := (rowIndices.getD i []).erase rowIndex
      if lst.isEmpty then .mk (keys.eraseIdx i) (rowIndices.eraseIdx i) children leaf
      else .mk keys (rowIndices.set i lst) children leaf
    else if leaf then .mk keys rowIndices children leaf
    else
      .mk keys rowIndices
        (listModify children i (fun c => removeFromNode fuel c value rowIndex)) leaf

/-- removeFromIndex of btree.ts. -/
def removeFromIndex (index : BTreeIndex) (value : Value) (rowIndex : Nat) : BTreeIndex :=
  { index with root := removeFromNode (nodeSize index.root + 1) index.root value rowIndex }

/-- rebuildIndex of btree.ts: fresh leaf root, then re-insert every pair
(the returned success flag is discarded by the source as well). -/
def rebuildIndex (index : BTreeIndex) (rows : List (Value × Nat)) : BTreeIndex :=
  rows.foldl (fun ix (p : Value × Nat) => (insertIntoIndex ix p.1 p.2).1)
    { index with root := createNode true }

/-- DataType of types.ts. -/
inductive DataType where
  | int | varchar | boolean | timestamp
deriving DecidableEq, Repr

/-- ColumnDefinition of types.ts; the optional JS booleans default to
absent, which reads as false everywhere the engine consults them. -/
structure ColumnDefinition where
  name : String
  type : DataType
  primaryKey : Bool := false
  unique : Bool := false
  notNull : Bool := false
  maxLength : Option Nat := none
deriving DecidableEq, Repr

/-- TableSchema of types.ts. -/
structure TableSchema where
  name : String
  columns : List ColumnDefinition
  primaryKey : Option String
  uniqueKeys : List String
deriving DecidableEq, Repr

/-- Table of types.ts.  The JS `Map` of indexes iterates in insertion
order, so it is modelled as an association list in that order. -/
structure Table where
  schema : TableSchema
  rows : List Row
  indexes : List (String × BTreeIndex)
  autoIncrement : Int

/-- Lookup `table.indexes.get(name)`. -/
def indexesGet : List (String × BTreeIndex) → String → Option BTreeIndex
  | [], _ => none
  | (k, ix) :: rest, key => if k = key then some ix else indexesGet rest key

/-- QueryResult of types.ts. -/
structure QueryResult where
  success : Bool
  data : Option (List Row) := none
  message : Option String := none
  affectedRows : Option Nat := none
  error : Option String := none
deriving DecidableEq, Repr

/-- Condition operators of types.ts (`<>` is normalised to `!=` by the
parser before reaching the executor). -/
inductive CondOp where
  | eq | ne | lt | gt | le | ge | like
deriving DecidableEq, Repr

/-- Logical connective carried by a condition: the connective standing
between this condition and the NEXT one in the WHERE sequence. -/
inductive LogicalOp where
  | and | or
deriving DecidableEq, Repr

/-- Condition of types.ts. -/
structure Condition where
  column : String
  operator : CondOp
  value : Value
  logicalOp : Option LogicalOp := none
deriving DecidableEq, Repr

/-- Join kinds of types.ts. -/
inductive JoinType where
  | inner | left | right
deriving DecidableEq, Repr

/-- The ON pair of a JoinClause. -/
structure OnClause where
  leftColumn : String
  rightColumn : String
deriving DecidableEq, Repr

/-- JoinClause of types.ts (the executor never reads the alias).  The
source field `on` is a reserved token here, hence `onCond`. -/
structure JoinClause where
  type : JoinType
  tableName : String
  onCond : OnClause
deriving DecidableEq, Repr

/-- LIKE pattern matching as the source compiles it: `%` becomes `.*`, `_`
becomes `.`, the regex is anchored at both ends and case-insensitive.  The
model covers patterns whose remaining characters are literals; no claim
involves other regex metacharacters. -/
def likeMatch : List Char → List Char → Bool
  | [], [] => true
  | [], _ :: _ => false
  | '%' :: ps, cs =>
    likeMatch ps cs ||
      (match cs with
       | [] => false
       | _ :: cs' => likeMatch ('%' :: ps) cs')
  | '_' :: ps, _ :: cs => likeMatch ps cs
  | '_' :: _, [] => false
  | p :: ps, c :: cs => (p.toLower == c.toLower) && likeMatch ps cs
  | _ :: _, [] => false
termination_by p s => (p.length, s.length)

/-- JS `<` where the left side may be `undefined` (missing column), which
coerces to NaN and yields false. -/
def jsLtOpt : Option Value → Value → Bool
  | none, _ => false
  | some v, w => jsLt v w

/-- JS `>` with a possibly-`undefined` left side. -/
def jsGtOpt : Option Value → Value → Bool
  | none, _ => false
  | some v, w => jsGt v w

/-- JS `<=` with a possibly-`undefined` left side. -/
def jsLeOpt : Option Value → Value → Bool
  | none, _ => false
  | some v, w => jsLe v w

/-- JS `>=` with a possibly-`undefined` left side. -/
def jsGeOpt : Option Value → Value → Bool
  | none, _ => false
  | some v, w => jsGe v w

/-- RDBMSEngine.evaluateCondition: read the row cell (possibly
`undefined`), dispatch on the operator.  `=`/`!=` are JS strict
(in)equality; the four order operators first require both operands
different from `null` and then apply the JS relational operator; LIKE
requires two strings. -/
def evaluateCondition (row : Row) (condition : Condition) : Bool :=
  let value := rowGet row condition.column
  let compareValue := condition.value
  match condition.operator with
  | .eq => jsEqOpt value (some compareValue)
  | .ne => !(jsEqOpt value (some compareValue))
  | .lt =>
    (value != some Value.null) && (compareValue != Value.null) && jsLtOpt value compareValue
  | .gt =>
    (value != some Value.null) && (compareValue != Value.null) && jsGtOpt value compareValue
  | .le =>
    (value != some Value.null) && (compareValue != Value.null) && jsLeOpt value compareValue
  | .ge =>
    (value != some Value.null) && (compareValue != Value.null) && jsGeOpt value compareValue
  | .like =>
    match value, compareValue with
    | some (.str s), .str p => likeMatch p.data s.data
    | _, _ => false

/-- The loop body of RDBMSEngine.evaluateConditions: `prev` is the
condition at position `i - 1`, whose `logicalOp` (defaulting to AND) is
the connective applied at position `i`. -/
def evaluateConditionsLoop (row : Row) : Bool → Condition → List Condition → Bool
  | result, _, [] => result
  | result, prev, c :: rest =>
    let prevOp := prev.logicalOp.getD LogicalOp.and
    let condResult := evaluateCondition row c
    let result' :=
      match prevOp with
      | .and => result && condResult
      | .or => result || condResult
    evaluateConditionsLoop row result' c rest

/-- RDBMSEngine.evaluateConditions: strict left-to-right fold over the
flat condition sequence, with no precedence between AND and OR. -/
def evaluateConditions (row : Row) (conditions : List Condition) : Bool :=
  match conditions with
  | [] => true
  | c0 :: rest => evaluateConditionsLoop row (evaluateCondition row c0) c0 rest

/-- RDBMSEngine.filterRows: locate the first condition with operator `=`
anywhere in the sequence; when the base table has an index on its column
and the posting list for its value is non-empty, replace the working row
sequence by the base-table rows at those positions (dropping out-of-range
positions, the `.filter(Boolean)` of the source); then run the general
filter over the working sequence. -/
def filterRows (rows : List Row) (conditions : List Condition) (table : Table) :
    List Row :=
  let firstEqCondition := conditions.find? (fun c => c.operator == CondOp.eq)
  let rows :=
    match firstEqCondition with
    | some c =>
      match indexesGet table.indexes c.column with
      | some index =>
        let rowIndices := searchIndex index c.value
        if 0 < rowIndices.length then rowIndices.filterMap (fun i => table.rows.get? i)
        else rows
      | none => rows
    | none => rows
  rows.filter (fun row => evaluateConditions row conditions)

/-- Base-row qualification at the head of RDBMSEngine.executeJoins: each
key is exposed both as `table.key` and bare, in that insertion order. -/
def qualifyRow (tableName : String) (row : Row) : Row :=
  row.foldl
    (fun acc (kv : String × Value) =>
      rowSet (rowSet acc (tableName ++ "." ++ kv.1) kv.2) kv.1 kv.2) []

/-- Computes `rightColumn.split('.').pop()`: the suffix after the last dot, the
whole string when no dot occurs.  (Stated over the character list so the
kernel can evaluate it.) -/
def lastComponent (s : String) : String :=
  ⟨(s.data.reverse.takeWhile (fun c => c ≠ '.')).reverse⟩

/-- Combined row construction in RDBMSEngine.executeJoins: spread of the
left row, then for each right key first the qualified copy and then,
only when the bare key is still absent, the bare copy. -/
def combineRow (leftRow : Row) (joinTableName : String) (rightRow : Row) : Row :=
  rightRow.foldl
    (fun acc (kv : String × Value) =>
      let acc := rowSet acc (joinTableName ++ "." ++ kv.1) kv.2
      if rowHas acc kv.1 then acc else rowSet acc kv.1 kv.2)
    leftRow

/-- LEFT-join null fill: every schema column of the joined table appears
qualified with value null. -/
def nullFill (leftRow : Row) (joinTableName : String) (cols : List ColumnDefinition) :
    Row :=
  cols.foldl (fun acc c => rowSet acc (joinTableName ++ "." ++ c.name) Value.null) leftRow

/-- Inner loop of RDBMSEngine.executeJoins over the right rows: collect a
combined row for every right row whose ON value is JS-strictly equal to
the left ON value, and report whether any matched. -/
def joinMatches (leftRow : Row) (join : JoinClause) (rightRows : List Row) :
    List Row × Bool :=
  rightRows.foldl
    (fun (acc : List Row × Bool) rightRow =>
      let rightCol := lastComponent join.onCond.rightColumn
      let leftValue := rowGet leftRow join.onCond.leftColumn
      let rightValue := rowGet rightRow rightCol
      if jsEqOpt leftValue rightValue then
        (acc.1 ++ [combineRow leftRow join.tableName rightRow], true)
      else acc)
    ([], false)

/-- Lookup `this.tables.get(name)` of the engine catalog. -/
def tablesGet : List (String × Table) → String → Option Table
  | [], _ => none
  | (k, t) :: rest, key => if k = key then some t else tablesGet rest key

/-- RDBMSEngine.executeJoins: qualify the base rows, then fold the joins
left-to-right; a missing joined table throws.  An unmatched left row is
kept (null-filled) only for LEFT; INNER and RIGHT drop it. -/
def executeJoins (tables : List (String × Table)) (table : Table)
    (joins : List JoinClause) : Except String (List Row) :=
  let init := table.rows.map (qualifyRow table.schema.name)
  joins.foldlM
    (fun result join =>
      match tablesGet tables join.tableName with
      | none => .error ("Table " ++ join.tableName ++ " does not exist")
      | some joinTable =>
        .ok (result.foldl
          (fun newResult leftRow =>
            let (found, matched) := joinMatches leftRow join joinTable.rows
            let newResult := newResult ++ found
            if !matched && join.type == JoinType.left then
              newResult ++ [nullFill leftRow join.tableName joinTable.schema.columns]
            else newResult)
          []))
    init

/-- RDBMSEngine.validateType: a null value always passes; INT requires an
integer number, VARCHAR a string within the declared maximum length when
one is set (a zero maximum is falsy in JS and disables the check; string
length is counted in characters), BOOLEAN a boolean, TIMESTAMP a Date or
any string. -/
def validateType (value : Value) (colDef : ColumnDefinition) : Bool :=
  match value with
  | .null => true
  | v =>
    match colDef.type with
    | .int =>
      match v with
      | .int _ => true
      | _ => false
    | .varchar =>
      match v with
      | .str s =>
        match colDef.maxLength with
        | some m => if m = 0 then true else decide (s.length ≤ m)
        | none => true
      | _ => false
    | .boolean =>
      match v with
      | .bool _ => true
      | _ => false
    | .timestamp =>
      match v with
      | .timestamp _ => true
      | .str _ => true
      | _ => false

/-- RDBMSEngine.createTable, per table: derive the primary key as the
first column flagged primary, the unique key list as every column flagged
unique or primary (in schema order), build one unique B-tree index per
unique key, rows empty, auto-increment counter 1.  (The catalog-level
duplicate-name check of the source guards the surrounding map, not the
table value built here.) -/
def createTable (columns : List ColumnDefinition) (tableName : String) : Table :=
  let primaryKey := (columns.find? (fun c => c.primaryKey)).map (fun c => c.name)
  let uniqueKeys := (columns.filter (fun c => c.unique || c.primaryKey)).map (fun c => c.name)
  { schema :=
      { name := tableName, columns := columns, primaryKey := primaryKey,
        uniqueKeys := uniqueKeys }
    rows := []
    indexes := uniqueKeys.map (fun k => (k, createBTreeIndex k true))
    autoIncrement := 1 }

/-- The row-building loop of RDBMSEngine.insert: zip the statement columns
with the statement values (the caller has checked equal lengths); an
unknown column, a failed type validation on a non-null value, or a null
against a not-null column each aborts with the error message of the
source. -/
def buildRowLoop (schemaCols : List ColumnDefinition) :
    List (String × Value) → Row → Except String Row
  | [], row => .ok row
  | (colName, value) :: rest, row =>
    match schemaCols.find? (fun c => c.name = colName) with
    | none => .error ("Column " ++ colName ++ " does not exist")
    | some colDef =>
      if value != Value.null then
        if !validateType value colDef then
          .error ("Invalid type for column " ++ colName)
        else buildRowLoop schemaCols rest (rowSet row colName value)
      else if colDef.notNull then
        .error ("Column " ++ colName ++ " cannot be NULL")
      else buildRowLoop schemaCols rest (rowSet row colName value)

/-- The missing-column loop of RDBMSEngine.insert: every declared column
absent from the built row becomes null, unless it is not-null and not the
primary key, which aborts. -/
def fillMissingLoop : List ColumnDefinition → Row → Except String Row
  | [], row => .ok row
  | col :: rest, row =>
    if !(rowHas row col.name) then
      if col.notNull && !col.primaryKey then
        .error ("Column " ++ col.name ++ " cannot be NULL")
      else fillMissingLoop rest (rowSet row col.name Value.null)
    else fillMissingLoop rest row

/-- The auto-increment step of RDBMSEngine.insert: when a primary key is
declared and its slot is absent or null, and its declared type is INT,
assign the current counter and post-increment.  Returns the (possibly
updated) row and counter. -/
def autoAssign (table : Table) (row : Row) : Row × Int :=
  match table.schema.primaryKey with
  | none => (row, table.autoIncrement)
  | some pk =>
    if !(rowHas row pk) || rowGet row pk == some Value.null then
      match table.schema.columns.find? (fun c => c.name = pk) with
      | some pkCol =>
        if pkCol.type = DataType.int then
          (rowSet row pk (Value.int table.autoIncrement), table.autoIncrement + 1)
        else (row, table.autoIncrement)
      | none => (row, table.autoIncrement)
    else (row, table.autoIncrement)

/-- The index loop of RDBMSEngine.insert: insert (value, position) into
each index in map order; on a uniqueness rejection stop and report the
column, keeping the indexes already updated (the source mutates them in
place and does not roll back). -/
def indexInsertLoop (row : Row) (rowIndex : Nat) :
    List (String × BTreeIndex) → Except (List (String × BTreeIndex) × String) (List (String × BTreeIndex))
  | [] => .ok []
  | (colName, index) :: rest =>
    let value := (rowGet row colName).getD Value.null
    let (index', okFlag) := insertIntoIndex index value rowIndex
    if okFlag then
      match indexInsertLoop row rowIndex rest with
      | .ok rest' => .ok ((colName, index') :: rest')
      | .error (rest', col) => .error ((colName, index') :: rest', col)
    else .error ((colName, index') :: rest, colName)

/-- RDBMSEngine.insert: length check, row build, missing-column fill,
auto-increment, then the index loop; only after every index accepted is
the row appended.  On an index rejection the already-bumped counter and
the part-way updated indexes remain in the table (as in the source,
which mutates in place), while the row vector is untouched.  Cells read
by the index loop exist for every indexed column, because indexed columns
are schema columns and the fill loop completed. -/
def insert (table : Table) (columns : List String) (values : List Value) :
    Table × QueryResult :=
  if columns.length ≠ values.length then
    (table, { success := false, error := some "Column count does not match value count" })
  else
    match buildRowLoop table.schema.columns (columns.zip values) [] with
    | .error e => (table, { success := false, error := some e })
    | .ok row0 =>
      match fillMissingLoop table.schema.columns row0 with
      | .error e => (table, { success := false, error := some e })
      | .ok row1 =>
        let (row2, counter') := autoAssign table row1
        let rowIndex := table.rows.length
        match indexInsertLoop row2 rowIndex table.indexes with
        | .error (indexes', colName) =>
          ({ table with indexes := indexes', autoIncrement := counter' },
            { success := false,
              error := some ("Duplicate value for unique column " ++ colName) })
        | .ok indexes' =>
          ({ table with
              indexes := indexes'
              rows := table.rows ++ [row2]
              autoIncrement := counter' },
            { success := true, message := some "Row inserted", affectedRows := some 1 })

/-- The per-row uniqueness check of RDBMSEngine.update: the first updated
column that is indexed, whose new value is JS-strictly different from the
current cell, and whose index holds a posting for the new value at some
other position, aborts with that column name. -/
def checkRowUpdates (indexes : List (String × BTreeIndex))
    (row : Row) (i : Nat) : List (String × Value) → Option String
  | [] => none
  | (colName, newValue) :: rest =>
    match indexesGet indexes colName with
    | some index =>
      if !(jsEqOpt (some newValue) (rowGet row colName)) then
        let existing := searchIndex index newValue
        if 0 < existing.length && !(existing.contains i) then some colName
        else checkRowUpdates indexes row i rest
      else checkRowUpdates indexes row i rest
    | none => checkRowUpdates indexes row i rest

/-- The per-row index maintenance of RDBMSEngine.update: for each updated
column with an index, remove (old value, position) and insert (new value,
position). -/
def applyIndexUpdates (indexes : List (String × BTreeIndex)) (row : Row) (i : Nat) :
    List (String × Value) → List (String × BTreeIndex)
  | [] => indexes
  | (colName, newValue) :: rest =>
    let indexes' :=
      match indexesGet indexes colName with
      | some _ =>
        indexes.map (fun (p : String × BTreeIndex) =>
          if p.1 = colName then
            (p.1,
              (insertIntoIndex
                (removeFromIndex p.2 ((rowGet row colName).getD Value.null) i)
                newValue i).1)
          else p)
      | none => indexes
    applyIndexUpdates indexes' row i rest

/-- The cell overwrite of RDBMSEngine.update. -/
def applyCellUpdates (row : Row) (updates : List (String × Value)) : Row :=
  updates.foldl (fun r (p : String × Value) => rowSet r p.1 p.2) row

/-- The row loop of RDBMSEngine.update, processing rows in increasing
position order: a row failing the WHERE filter is kept; a passing row is
first checked for uniqueness violations — a violation returns immediately,
keeping every earlier row already updated (the source mutates in place) —
then its indexes and cells are updated.  Returns the final row vector,
indexes and result. -/
def updateLoop (updates : List (String × Value)) (conditions : Option (List Condition)) :
    List (String × BTreeIndex) → List Row → List Row → Nat → Nat →
    List Row × List (String × BTreeIndex) × QueryResult
  | indexes, processed, [], _, affected =>
    (processed, indexes,
      { success := true, message := some ("Updated " ++ toString affected ++ " row(s)"),
        affectedRows := some affected })
  | indexes, processed, row :: rest, i, affected =>
    if (match conditions with
        | none => true
        | some cs => evaluateConditions row cs) then
      match checkRowUpdates indexes row i updates with
      | some colName =>
        (processed ++ row :: rest, indexes,
          { success := false,
            error := some ("Duplicate value for unique column " ++ colName) })
      | none =>
        let indexes' := applyIndexUpdates indexes row i updates
        let row' := applyCellUpdates row updates
        updateLoop updates conditions indexes' (processed ++ [row']) rest (i + 1)
          (affected + 1)
    else updateLoop updates conditions indexes (processed ++ [row]) rest (i + 1) affected

/-- RDBMSEngine.update. -/
def update (table : Table) (updates : List (String × Value))
    (conditions : Option (List Condition)) : Table × QueryResult :=
  let (rows', indexes', result) :=
    updateLoop updates conditions table.indexes [] table.rows 0 0
  ({ table with rows := rows', indexes := indexes' }, result)

/-- RDBMSEngine.delete: gather positions of rows passing the filter,
remove each (cell value, position) from every index, drop the rows
(descending-order splice, i.e. keep positions outside the set), then
rebuild every index from the surviving rows at their new positions. -/
def delete (table : Table) (conditions : Option (List Condition)) : Table × QueryResult :=
  let indicesToDelete :=
    (List.range table.rows.length).filter (fun i =>
      match conditions with
      | none => true
      | some cs => evaluateConditions (table.rows.getD i []) cs)
  let indexes1 :=
    indicesToDelete.foldl
      (fun ixs idx =>
        let row := table.rows.getD idx []
        ixs.map (fun (p : String × BTreeIndex) =>
          (p.1, removeFromIndex p.2 ((rowGet row p.1).getD Value.null) idx)))
      table.indexes
  let rows' :=
    ((List.range table.rows.length).filter (fun i => !(indicesToDelete.contains i))).map
      (fun i => table.rows.getD i [])
  let indexes2 :=
    indexes1.map (fun (p : String × BTreeIndex) =>
      (p.1, rebuildIndex p.2
        (rows'.mapIdx (fun i row => ((rowGet row p.1).getD Value.null, i)))))
  ({ table with rows := rows', indexes := indexes2 },
    { success := true,
      message := some ("Deleted " ++ toString indicesToDelete.length ++ " row(s)"),
      affectedRows := some indicesToDelete.length })

/-- JS String.prototype.trim, stated over the character list so the
kernel can evaluate it. -/
def jsTrimStr (s : String) : String :=
  ⟨((s.data.dropWhile Char.isWhitespace).reverse.dropWhile Char.isWhitespace).reverse⟩

/-- JS toUpperCase on the ASCII range the grammar uses. -/
def upperStr (s : String) : String := ⟨s.data.map Char.toUpper⟩

/-- The single-quote character, by code point. -/
def singleQuote : Char := Char.ofNat 39

/-- The double-quote character, by code point. -/
def doubleQuote : Char := Char.ofNat 34

/-- JS startsWith for a one-character needle. -/
def headIs (s : String) (c : Char) : Bool := s.data.head? == some c

/-- JS endsWith for a one-character needle. -/
def lastIs (s : String) (c : Char) : Bool := s.data.getLast? == some c

/-- The quoted-literal test of parseValue: enclosed in matching single or
double quotes. -/
def quotedLit (t : String) : Bool :=
  (headIs t singleQuote && lastIs t singleQuote) ||
    (headIs t doubleQuote && lastIs t doubleQuote)

/-- Computes `trimmed.slice(1, -1)`: drop the first and last characters. -/
def stripEnds (t : String) : String := ⟨(t.data.drop 1).dropLast⟩

/-- parseValue of parser.ts: after trimming, the case-insensitive keywords
NULL/TRUE/FALSE, then a quoted string stripped of its quotes, then a
numeric literal, and finally the bareword itself as a string — this
function never fails. -/
def parseValue (s : String) : Value :=
  let trimmed := jsTrimStr s
  if upperStr trimmed = "NULL" then Value.null
  else if upperStr trimmed = "TRUE" then Value.bool true
  else if upperStr trimmed = "FALSE" then Value.bool false
  else if quotedLit trimmed then Value.str (stripEnds trimmed)
  else
    match numParse trimmed with
    | some n => Value.int n
    | none => Value.str trimmed

/-- Follows the spec wording of section 4.4.2 (stated independently of the
engine loop, for comparison with it): the WHERE truth value is the strict
left-to-right fold `result = result OP_i condition_i`, seeded with the
first condition's value, where `OP_i` is the connective carried by
condition `i - 1`, defaulting to AND, and no precedence applies. -/
def specConditionFold (row : Row) (conditions : List Condition) : Bool :=
  match conditions with
  | [] => true
  | c0 :: rest =>
    ((conditions.dropLast.map (fun c => c.logicalOp.getD LogicalOp.and)).zip rest).foldl
      (fun result (p : LogicalOp × Condition) =>
        match p.1 with
        | .and => result && evaluateCondition row p.2
        | .or => result || evaluateCondition row p.2)
      (evaluateCondition row c0)

/-- Follows the amended-claim wording for joins: a single INNER join pairs
each qualified left row with exactly those right rows whose ON value is
JS-strictly identical to the left ON value (strict identity of value, no
coercion; a null ON value is identical to a null ON value). -/
def innerJoinSpec (table : Table) (joinTable : Table) (join : JoinClause) : List Row :=
  (table.rows.map (qualifyRow table.schema.name)).flatMap (fun leftRow =>
    (joinTable.rows.filter (fun rightRow =>
        jsEqOpt (rowGet leftRow join.onCond.leftColumn)
          (rowGet rightRow (lastComponent join.onCond.rightColumn)))).map
      (combineRow leftRow join.tableName))

/-- The value an INSERT statement supplies for a column: the last
assignment wins, mirroring repeated `row[col] = value` writes in the
row-building loop. -/
def suppliedValue : List (String × Value) → String → Option Value
  | [], _ => none
  | (c, v) :: rest, key =>
    match suppliedValue rest key with
    | some w => some w
    | none => if c = key then some v else none

/-- Mutating statement forms, for claims about statement sequences.
SELECT reads without touching table state and DROP removes the whole
table, so neither affects a surviving table; the three mutators are
modelled. -/
inductive Stmt where
  | ins (columns : List String) (values : List Value)
  | upd (updates : List (String × Value)) (conditions : Option (List Condition))
  | del (conditions : Option (List Condition))

/-- Execute one statement against a table, keeping the resulting state
(including the mid-loop state an aborted statement leaves behind). -/
def applyStmt (t : Table) : Stmt → Table
  | .ins c v => (insert t c v).1
  | .upd u c => (update t u c).1
  | .del c => (delete t c).1

/-- The primary-key values auto-assigned by a statement, observed through
the counter: the counter moves exactly when the engine auto-assigned the
old counter value as the row's primary key (see `autoAssign`). -/
def assignedBy (t : Table) : Stmt → List Int
  | .ins c v =>
    if (insert t c v).1.autoIncrement ≠ t.autoIncrement then [t.autoIncrement] else []
  | _ => []

/-- Run a statement sequence, collecting every auto-assigned value. -/
def run (t : Table) : List Stmt → Table × List Int
  | [] => (t, [])
  | s :: rest =>
    let t' := applyStmt t s
    let (tf, vs) := run t' rest
    (tf, assignedBy t s ++ vs)

/-! Concrete scenario states used by the claim theorems below.  Each is
built by running the embedded engine operations, never written by hand. -/

/-- Table (a INT PRIMARY KEY, b INT UNIQUE): two unique indexes. -/
def c1T0 : Table :=
  createTable
    [{ name := "a", type := .int, primaryKey := true, notNull := true },
      { name := "b", type := .int, unique := true }] "t"

/-- State after INSERT (a, b) VALUES (1, 1). -/
def c1T1 : Table := (insert c1T0 ["a", "b"] [.int 1, .int 1]).1

/-- The attempted INSERT (a, b) VALUES (2, 1): index a accepts (2, 1),
index b then rejects the duplicate 1. -/
def c1Step : Table × QueryResult := insert c1T1 ["a", "b"] [.int 2, .int 1]

/-- Table (id INT PRIMARY KEY, name VARCHAR(5) NOT NULL). -/
def c2T0 : Table :=
  createTable
    [{ name := "id", type := .int, primaryKey := true, notNull := true },
      { name := "name", type := .varchar, notNull := true, maxLength := some 5 }] "t"

/-- State after INSERT (id, name) VALUES (1, 'ok'). -/
def c2T1 : Table := (insert c2T0 ["id", "name"] [.int 1, .str "ok"]).1

/-- The UPDATE t SET name = NULL with no WHERE. -/
def c2Step : Table × QueryResult := update c2T1 [("name", Value.null)] none

/-- Table (k INT PRIMARY KEY, f VARCHAR(10)). -/
def c3T0 : Table :=
  createTable
    [{ name := "k", type := .int, primaryKey := true, notNull := true },
      { name := "f", type := .varchar, maxLength := some 10 }] "t"

/-- State after INSERT (1, 'A'). -/
def c3T1 : Table := (insert c3T0 ["k", "f"] [.int 1, .str "A"]).1

/-- State after the further INSERT (2, 'B'). -/
def c3T2 : Table := (insert c3T1 ["k", "f"] [.int 2, .str "B"]).1

/-- WHERE k = 1 OR f = 'B'. -/
def c3Conds : List Condition :=
  [{ column := "k", operator := .eq, value := .int 1, logicalOp := some .or },
    { column := "f", operator := .eq, value := .str "B" }]

/-- Table (id INT PRIMARY KEY, u INT UNIQUE). -/
def c4T0 : Table :=
  createTable
    [{ name := "id", type := .int, primaryKey := true, notNull := true },
      { name := "u", type := .int, unique := true }] "t"

/-- State after INSERT (1, 1). -/
def c4T1 : Table := (insert c4T0 ["id", "u"] [.int 1, .int 1]).1

/-- State after the further INSERT (2, 2). -/
def c4T2 : Table := (insert c4T1 ["id", "u"] [.int 2, .int 2]).1

/-- The UPDATE t SET u = 5 with no WHERE: row 0 is updated to u = 5, then
row 1 trips the uniqueness check against row 0's fresh posting. -/
def c4Step : Table × QueryResult := update c4T2 [("u", Value.int 5)] none

/-- Table a (id INT PRIMARY KEY, x INT). -/
def c5A0 : Table :=
  createTable
    [{ name := "id", type := .int, primaryKey := true, notNull := true },
      { name := "x", type := .int }] "a"

/-- State of a after INSERT (id) VALUES (1): x is null-filled. -/
def c5A1 : Table := (insert c5A0 ["id"] [.int 1]).1

/-- Table b (id INT PRIMARY KEY, aid INT). -/
def c5B0 : Table :=
  createTable
    [{ name := "id", type := .int, primaryKey := true, notNull := true },
      { name := "aid", type := .int }] "b"

/-- State of b after INSERT (id) VALUES (1): aid is null-filled. -/
def c5B1 : Table := (insert c5B0 ["id"] [.int 1]).1

/-- JOIN b ON a.x = b.aid, with both ON cells null. -/
def c5J : JoinClause :=
  { type := .inner, tableName := "b",
    onCond := { leftColumn := "a.x", rightColumn := "b.aid" } }

/-- Table (k INT PRIMARY KEY, f VARCHAR(10)) for the connective example. -/
def c6T0 : Table :=
  createTable
    [{ name := "k", type := .int, primaryKey := true, notNull := true },
      { name := "f", type := .varchar, maxLength := some 10 }] "t"

/-- State after INSERT (k) VALUES (1). -/
def c6T1 : Table := (insert c6T0 ["k"] [.int 1]).1

/-- State after the further INSERT (k) VALUES (2). -/
def c6T2 : Table := (insert c6T1 ["k"] [.int 2]).1

/-- State after the further INSERT (k, f) VALUES (3, 'B'). -/
def c6T3 : Table := (insert c6T2 ["k", "f"] [.int 3, .str "B"]).1

/-- WHERE k = 1 OR k = 2 AND f = 'B'. -/
def c6Conds : List Condition :=
  [{ column := "k", operator := .eq, value := .int 1, logicalOp := some .or },
    { column := "k", operator := .eq, value := .int 2, logicalOp := some .and },
    { column := "f", operator := .eq, value := .str "B" }]

/-- Table (id INT PRIMARY KEY) for the explicit-key counter scenario. -/
def c10T0 : Table :=
  createTable [{ name := "id", type := .int, primaryKey := true, notNull := true }] "t"

/-- The explicit INSERT (id) VALUES (1): key 1 equals the current counter. -/
def c10Step1 : Table × QueryResult := insert c10T0 ["id"] [.int 1]

/-- The later auto-assigned INSERT with no columns: the counter value 1 is
assigned and collides with the explicit key. -/
def c10Step2 : Table × QueryResult := insert c10Step1.1 [] []

/-- A throwaway condition used as a list-access default in witnesses. -/
def dummyCond : Condition :=
  { column := "", operator := .eq, value := .null, logicalOp := none }

/-! ### Shared lemmas -/

/-- Reading through a write: the written key returns the new value, any
other key is unaffected. -/
theorem rowGet_rowSet (r : Row) (key k : String) (v : Value) :
    rowGet (rowSet r key v) k = if key = k then some v else rowGet r k := by
  induction r with
  | nil =>
    by_cases h : key = k <;> simp [rowSet, rowGet, h]
  | cons hd tl ih =>
    obtain ⟨a, w⟩ := hd
    by_cases ha : a = key
    · subst ha
      by_cases h : a = k <;> simp [rowSet, rowGet, h]
    · by_cases h : a = k
      · subst h
        simp [rowSet, rowGet, ha, Ne.symm ha]
      · simp [rowSet, rowGet, ha, h, ih]

/-! ### C1 -/

/-- C1: the claim states that a uniqueness failure during INSERT leaves
every index unchanged.  In the source the indexes are updated one by one
with no rollback: on table (a INT PRIMARY KEY, b INT UNIQUE) holding
(1, 1), the attempted INSERT (2, 1) is rejected by index b, yet index a
has already accepted the posting (2, position 1) and keeps it, while the
row vector is unchanged — the pre-call and post-call index states differ. -/
theorem c1_insert_unique_failure_pollutes_prior_index :
    (c1Step.2.success = false) ∧
    ((indexesGet c1T1.indexes "a").map (fun ix => searchIndex ix (Value.int 2)) =
      some []) ∧
    ((indexesGet c1Step.1.indexes "a").map (fun ix => searchIndex ix (Value.int 2)) =
      some [1]) ∧
    (c1Step.1.rows = c1T1.rows) := by
  decide

/-! ### C2 -/

/-- C2: the claim states that an UPDATE setting a not-null column to null
is aborted.  The source's update path validates only uniqueness, never
not-null or varchar length: on (id INT PRIMARY KEY, name VARCHAR(5) NOT
NULL) holding (1, 'ok'), UPDATE SET name = NULL reports success and the
stored row now carries null in the not-null column. -/
theorem c2_update_sets_not_null_column_to_null :
    (c2Step.2.success = true) ∧
    (rowGet (c2Step.1.rows.getD 0 []) "name" = some Value.null) ∧
    ((c2T1.schema.columns.find? (fun c => c.name = "name")).map
      (fun c => c.notNull) = some true) := by
  decide

/-! ### C3 -/

/-- C3: the claim states the index-assisted filter path returns exactly
what the general filter over the full sequence returns.  With OR in the
condition list the seeded working set loses rows the general filter
accepts: on rows (1, 'A'), (2, 'B') with WHERE k = 1 OR f = 'B', the
index path returns only the first row while the general filter returns
both. -/
theorem c3_index_assisted_filter_loses_or_rows :
    (filterRows c3T2.rows c3Conds c3T2 = c3T2.rows.take 1) ∧
    (c3T2.rows.filter (fun r => evaluateConditions r c3Conds) = c3T2.rows) ∧
    (c3T2.rows.length = 2) := by
  decide

/-! ### C4 -/

/-- C4: the claim states a uniqueness violation aborts the entire UPDATE
with no changes, including rows earlier in position order.  The source
updates row by row and aborts mid-loop: UPDATE SET u = 5 on rows
(1, u=1), (2, u=2) fails at row 1, but row 0 has already been updated to
u = 5 (it held u = 1 before the call). -/
theorem c4_update_abort_keeps_earlier_row_changes :
    (c4Step.2.success = false) ∧
    (rowGet (c4T2.rows.getD 0 []) "u" = some (Value.int 1)) ∧
    (rowGet (c4Step.1.rows.getD 0 []) "u" = some (Value.int 5)) := by
  decide

/-! ### C5 -/

/-- C5 counterexample: the claim states a pair is never emitted when
either ON operand is null, in particular that null never matches null.
JS strict equality has `null === null` true, so the join of a row with
x = null against a row with aid = null on a.x = b.aid emits exactly one
combined pair. -/
theorem c5_join_emits_null_to_null_pair :
    (rowGet (c5A1.rows.getD 0 []) "x" = some Value.null) ∧
    (rowGet (c5B1.rows.getD 0 []) "aid" = some Value.null) ∧
    ((executeJoins [("a", c5A1), ("b", c5B1)] c5A1 [c5J]).toOption.map
      List.length = some 1) := by
  decide

/-- The inner loop over right rows collects exactly the strict-equality
filter of the right rows, combined with the left row, in order. -/
theorem joinMatches_go (leftRow : Row) (j : JoinClause) :
    ∀ (rightRows : List Row) (acc : List Row × Bool),
    (rightRows.foldl
      (fun (acc : List Row × Bool) rightRow =>
        let rightCol := lastComponent j.onCond.rightColumn
        let leftValue := rowGet leftRow j.onCond.leftColumn
        let rightValue := rowGet rightRow rightCol
        if jsEqOpt leftValue rightValue then
          (acc.1 ++ [combineRow leftRow j.tableName rightRow], true)
        else acc)
      acc).1 =
      acc.1 ++
        (rightRows.filter (fun rightRow =>
            jsEqOpt (rowGet leftRow j.onCond.leftColumn)
              (rowGet rightRow (lastComponent j.onCond.rightColumn)))).map
          (combineRow leftRow j.tableName) := by
  intro rightRows
  induction rightRows with
  | nil => intro acc; simp
  | cons r rest ih =>
    intro acc
    simp only [List.foldl_cons, List.filter_cons]
    by_cases h :
        jsEqOpt (rowGet leftRow j.onCond.leftColumn)
          (rowGet r (lastComponent j.onCond.rightColumn)) = true
    · simp [h, ih]
    · simp only [Bool.not_eq_true] at h
      simp [h, ih]

/-- First component of `joinMatches` in closed form. -/
theorem joinMatches_fst (leftRow : Row) (j : JoinClause) (rightRows : List Row) :
    (joinMatches leftRow j rightRows).1 =
      (rightRows.filter (fun rightRow =>
          jsEqOpt (rowGet leftRow j.onCond.leftColumn)
            (rowGet rightRow (lastComponent j.onCond.rightColumn)))).map
        (combineRow leftRow j.tableName) := by
  simpa [joinMatches] using joinMatches_go leftRow j rightRows ([], false)

/-- Folding plain concatenations is a flat map. -/
theorem foldl_append_flatMap (m : Row → List Row) :
    ∀ (ls : List Row) (acc : List Row),
    ls.foldl (fun acc l => acc ++ m l) acc = acc ++ ls.flatMap m := by
  intro ls
  induction ls with
  | nil => intro acc; simp
  | cons l rest ih => intro acc; simp [ih, List.flatMap_cons, List.append_assoc]

/-- C5 amended: a single INNER join emits exactly the pairs whose ON
values are JS-strictly identical — strict identity of value with no type
coercion — and strict identity holds of two null operands, so a null left
ON value matches a null right ON value (rather than never matching). -/
theorem c5_inner_join_pairs_by_strict_identity (tables : List (String × Table))
    (table joinTable : Table) (j : JoinClause)
    (hlook : tablesGet tables j.tableName = some joinTable)
    (htype : j.type = JoinType.inner) :
    executeJoins tables table [j] = .ok (innerJoinSpec table joinTable j) ∧
    jsEq Value.null Value.null = true := by
  constructor
  · have hne : (JoinType.inner == JoinType.left) = false := by decide
    simp only [executeJoins, List.foldlM_cons, List.foldlM_nil, hlook, htype, hne,
      Bool.and_false, Bool.false_eq_true, if_false, bind_pure]
    rw [foldl_append_flatMap (fun leftRow => (joinMatches leftRow j joinTable.rows).1)]
    simp only [List.nil_append, innerJoinSpec]
    exact congrArg Except.ok
      (congrArg _ (funext fun leftRow => joinMatches_fst leftRow j joinTable.rows))
  · rfl

/-- Witness for the amended C5 statement on the concrete null-ON tables. -/
theorem c5_amended_witness :
    executeJoins [("a", c5A1), ("b", c5B1)] c5A1 [c5J] =
      .ok (innerJoinSpec c5A1 c5B1 c5J) :=
  (c5_inner_join_pairs_by_strict_identity [("a", c5A1), ("b", c5B1)] c5A1 c5B1 c5J
    rfl rfl).1

/-! ### C7 -/

/-- C7 counterexample: the claim states ordering operators are false
whenever the operands are of different kinds, e.g. an integer row value
against a string literal under `<`.  JS `<` coerces the non-string pair
numerically: with row value 1 and literal '2' the condition a < '2'
evaluates to true. -/
theorem c7_cross_kind_ordering_can_be_true :
    evaluateCondition [("a", Value.int 1)]
      { column := "a", operator := .lt, value := .str "2" } = true := by
  decide

/-- Strict equality across kinds is false. -/
theorem jsEq_false_of_kind_ne (a b : Value) (h : valueKind a ≠ valueKind b) :
    jsEq a b = false := by
  cases a <;> cases b <;> simp_all [jsEq, valueKind]

/-- C7 amended: comparing a row value and a literal of different kinds
with `=` is false, and the four ordering operators are false whenever
either operand is null; across kinds the ordering operators coerce
non-string operands numerically and can be true (see the
counterexample), so the cross-kind clause holds for `=` only. -/
theorem c7_eq_cross_kind_false_and_null_ordering_false :
    (∀ (row : Row) (c : Condition) (v : Value), c.operator = CondOp.eq →
        rowGet row c.column = some v → valueKind v ≠ valueKind c.value →
        evaluateCondition row c = false) ∧
    (∀ (row : Row) (c : Condition),
        (c.operator = CondOp.lt ∨ c.operator = CondOp.gt ∨
          c.operator = CondOp.le ∨ c.operator = CondOp.ge) →
        (rowGet row c.column = some Value.null ∨ c.value = Value.null) →
        evaluateCondition row c = false) := by
  constructor
  · intro row c v hop hget hk
    simp only [evaluateCondition, hop, hget, jsEqOpt]
    exact jsEq_false_of_kind_ne v c.value hk
  · intro row c hop hnull
    rcases hop with h | h | h | h <;>
      rcases hnull with hn | hn <;>
        simp [evaluateCondition, h, hn]

/-- Witness for the amended C7 statement at concrete inputs: integer 1
against string '1' under `=` is false, and a null row value under `<` is
false. -/
theorem c7_amended_witness :
    (evaluateCondition [("a", Value.int 1)]
      { column := "a", operator := .eq, value := .str "1" } = false) ∧
    (evaluateCondition [("a", Value.null)]
      { column := "a", operator := .lt, value := .int 5 } = false) :=
  ⟨c7_eq_cross_kind_false_and_null_ordering_false.1 _ _ (Value.int 1) rfl rfl
      (by decide),
    c7_eq_cross_kind_false_and_null_ordering_false.2 _ _ (Or.inl rfl) (Or.inl rfl)⟩

/-! ### C6 -/

/-- The engine loop agrees with the spec-worded fold, for any seed and
any previous condition. -/
theorem evaluateConditionsLoop_eq_foldl (row : Row) :
    ∀ (rest : List Condition) (prev : Condition) (result : Bool),
    evaluateConditionsLoop row result prev rest =
      (((prev :: rest).dropLast.map (fun c => c.logicalOp.getD LogicalOp.and)).zip
          rest).foldl
        (fun result (p : LogicalOp × Condition) =>
          match p.1 with
          | .and => result && evaluateCondition row p.2
          | .or => result || evaluateCondition row p.2)
        result := by
  intro rest
  induction rest with
  | nil => intro prev result; simp [evaluateConditionsLoop]
  | cons c rest' ih =>
    intro prev result
    simp only [evaluateConditionsLoop, List.dropLast_cons₂, List.map_cons,
      List.zip_cons_cons, List.foldl_cons]
    rw [ih c]

/-- C6: the WHERE truth value is the strict left-to-right fold of the
spec with no AND-over-OR precedence, so `A OR B AND C` evaluates as
`(A OR B) AND C`; with rows (1), (2), (3, 'B') the query
WHERE k = 1 OR k = 2 AND f = 'B' selects no rows, on both the
index-assisted path and the plain filter. -/
theorem c6_conditions_fold_left_to_right_no_precedence :
    (∀ (row : Row) (conditions : List Condition),
        evaluateConditions row conditions = specConditionFold row conditions) ∧
    (∀ (row : Row) (a b c : Condition), a.logicalOp = some LogicalOp.or →
        b.logicalOp = some LogicalOp.and →
        evaluateConditions row [a, b, c] =
          ((evaluateCondition row a || evaluateCondition row b) &&
            evaluateCondition row c)) ∧
    (filterRows c6T3.rows c6Conds c6T3 = []) ∧
    (c6T3.rows.filter (fun r => evaluateConditions r c6Conds) = []) ∧
    (c6T3.rows.length = 3) := by
  refine ⟨?_, ?_, by decide, by decide, by decide⟩
  · intro row conditions
    cases conditions with
    | nil => rfl
    | cons c0 rest =>
      simp only [evaluateConditions, specConditionFold]
      exact evaluateConditionsLoop_eq_foldl row rest c0 (evaluateCondition row c0)
  · intro row a b c h1 h2
    simp only [evaluateConditions, evaluateConditionsLoop, h1, h2, Option.getD_some]

/-- Witness for C6 at concrete inputs: the fold equality on the example
conditions and the `(A OR B) AND C` shape on the row (k = 1). -/
theorem c6_witness :
    evaluateConditions [("k", Value.int 1)] c6Conds =
      ((evaluateCondition [("k", Value.int 1)] (c6Conds.getD 0 dummyCond) ||
          evaluateCondition [("k", Value.int 1)] (c6Conds.getD 1 dummyCond)) &&
        evaluateCondition [("k", Value.int 1)] (c6Conds.getD 2 dummyCond)) :=
  c6_conditions_fold_left_to_right_no_precedence.2.1 [("k", Value.int 1)]
    (c6Conds.getD 0 dummyCond) (c6Conds.getD 1 dummyCond) (c6Conds.getD 2 dummyCond)
    (by decide) (by decide)

/-! ### C9 -/

/-- C9: a literal token that is not NULL/TRUE/FALSE (case-insensitive),
not enclosed in matching quotes, and not parseable as a number comes back
from parseValue as the trimmed token text itself as a string value; the
function has no failure path, so a bareword never causes a parse-time
rejection. -/
theorem c9_parseValue_bareword_fallback (s : String)
    (h1 : upperStr (jsTrimStr s) ≠ "NULL") (h2 : upperStr (jsTrimStr s) ≠ "TRUE")
    (h3 : upperStr (jsTrimStr s) ≠ "FALSE") (h4 : quotedLit (jsTrimStr s) = false)
    (h5 : numParse (jsTrimStr s) = none) :
    parseValue s = Value.str (jsTrimStr s) := by
  simp [parseValue, h1, h2, h3, h4, h5]

/-- Witness for C9 at the bareword `abc`. -/
theorem c9_witness : parseValue "abc" = Value.str (jsTrimStr "abc") :=
  c9_parseValue_bareword_fallback "abc" (by decide) (by decide) (by decide)
    (by decide) (by decide)

/-! ### Auto-increment lemmas (C8, C10) -/

/-- Reading the built row at a key gives the last value the statement
supplied for it, or the initial row's cell when it never did. -/
theorem buildRowLoop_get (schemaCols : List ColumnDefinition) :
    ∀ (pairs : List (String × Value)) (r0 row : Row) (k : String),
    buildRowLoop schemaCols pairs r0 = .ok row →
    rowGet row k =
      (match suppliedValue pairs k with
       | some v => some v
       | none => rowGet r0 k) := by
  intro pairs
  induction pairs with
  | nil =>
    intro r0 row k h
    simp only [buildRowLoop, Except.ok.injEq] at h
    subst h
    simp [suppliedValue]
  | cons p rest ih =>
    intro r0 row k h
    obtain ⟨c, v⟩ := p
    simp only [buildRowLoop] at h
    cases hf : schemaCols.find? (fun cd => cd.name = c) with
    | none => rw [hf] at h; exact absurd h (by simp)
    | some colDef =>
      rw [hf] at h
      dsimp only at h
      have hstep : buildRowLoop schemaCols rest (rowSet r0 c v) = .ok row := by
        by_cases hv : (v != Value.null) = true
        · rw [if_pos hv] at h
          by_cases hval : (!validateType v colDef) = true
          · rw [if_pos hval] at h; exact absurd h (by simp)
          · rwa [if_neg hval] at h
        · rw [if_neg hv] at h
          by_cases hnn : colDef.notNull = true
          · rw [if_pos hnn] at h; exact absurd h (by simp)
          · rwa [if_neg hnn] at h
      rw [ih (rowSet r0 c v) row k hstep, suppliedValue]
      cases hs : suppliedValue rest k with
      | some w => simp [hs]
      | none =>
        by_cases hck : c = k <;> simp [hs, hck, rowGet_rowSet]

/-- The fill loop never changes a key that is already present. -/
theorem fillMissingLoop_get_some :
    ∀ (cols : List ColumnDefinition) (r0 row : Row) (k : String) (v : Value),
    fillMissingLoop cols r0 = .ok row → rowGet r0 k = some v →
    rowGet row k = some v := by
  intro cols
  induction cols with
  | nil =>
    intro r0 row k v h hget
    simp only [fillMissingLoop, Except.ok.injEq] at h
    subst h
    exact hget
  | cons col rest ih =>
    intro r0 row k v h hget
    simp only [fillMissingLoop] at h
    by_cases hh : (!(rowHas r0 col.name)) = true
    · rw [if_pos hh] at h
      by_cases hc : (col.notNull && !col.primaryKey) = true
      · rw [if_pos hc] at h; exact absurd h (by simp)
      · rw [if_neg hc] at h
        refine ih _ _ _ _ h ?_
        rw [rowGet_rowSet]
        by_cases hck : col.name = k
        · subst hck
          rw [rowHas, hget] at hh
          simp at hh
        · rw [if_neg hck]; exact hget
    · rw [if_neg hh] at h
      exact ih _ _ _ _ h hget

/-- The counter after autoAssign: unchanged, or bumped by exactly one. -/
theorem autoAssign_snd (t : Table) (r : Row) :
    (autoAssign t r).2 = t.autoIncrement ∨
      (autoAssign t r).2 = t.autoIncrement + 1 := by
  rcases hpk : t.schema.primaryKey with _ | pk
  · left; simp [autoAssign, hpk]
  · by_cases h1 : (!(rowHas r pk) || rowGet r pk == some Value.null) = true
    · cases hf : t.schema.columns.find? (fun c => c.name = pk) with
      | none => left; simp [autoAssign, hpk, h1, hf]
      | some pkCol =>
        by_cases h2 : pkCol.type = DataType.int
        · right; simp [autoAssign, hpk, h1, hf, h2]
        · left; simp [autoAssign, hpk, h1, hf, h2]
    · left; simp [autoAssign, hpk, h1]

/-- A row that already carries a non-null primary key suppresses the
bump. -/
theorem autoAssign_snd_of_present (t : Table) (r : Row) (pk : String) (v : Value)
    (hpk : t.schema.primaryKey = some pk) (hget : rowGet r pk = some v)
    (hv : v ≠ Value.null) :
    (autoAssign t r).2 = t.autoIncrement := by
  have h1 : (!(rowHas r pk) || rowGet r pk == some Value.null) = false := by
    simp [rowHas, hget, hv]
  simp [autoAssign, hpk, h1]

/-- When the counter moves, autoAssign took the assignment branch: a
primary key is declared, its slot was absent or null, and the row gains
the old counter as its key. -/
theorem autoAssign_of_bump (t : Table) (r : Row)
    (h : (autoAssign t r).2 ≠ t.autoIncrement) :
    ∃ pk, t.schema.primaryKey = some pk ∧
      (autoAssign t r).1 = rowSet r pk (Value.int t.autoIncrement) ∧
      (autoAssign t r).2 = t.autoIncrement + 1 ∧
      (rowHas r pk = false ∨ rowGet r pk = some Value.null) := by
  rcases hpk : t.schema.primaryKey with _ | pk
  · exact absurd (by simp [autoAssign, hpk]) h
  · refine ⟨pk, rfl, ?_⟩
    by_cases h1 : (!(rowHas r pk) || rowGet r pk == some Value.null) = true
    · cases hf : t.schema.columns.find? (fun c => c.name = pk) with
      | none => exact absurd (by simp [autoAssign, hpk, h1, hf]) h
      | some pkCol =>
        by_cases h2 : pkCol.type = DataType.int
        · refine ⟨by simp [autoAssign, hpk, h1, hf, h2],
            by simp [autoAssign, hpk, h1, hf, h2], ?_⟩
          simp only [Bool.or_eq_true] at h1
          rcases h1 with hcase | hcase
          · left; simpa using hcase
          · right; simpa [beq_iff_eq] using hcase
        · exact absurd (by simp [autoAssign, hpk, h1, hf, h2]) h
    · exact absurd (by simp [autoAssign, hpk, h1]) h

/-- Where the final counter of an insert comes from: untouched after any
early validation error, otherwise exactly the autoAssign output on the
filled row. -/
theorem insert_counter (t : Table) (cols : List String) (vals : List Value) :
    (insert t cols vals).1.autoIncrement = t.autoIncrement ∨
      ∃ row0 row1,
        buildRowLoop t.schema.columns (cols.zip vals) [] = .ok row0 ∧
        fillMissingLoop t.schema.columns row0 = .ok row1 ∧
        (insert t cols vals).1.autoIncrement = (autoAssign t row1).2 := by
  by_cases hlen : cols.length = vals.length
  · cases hb : buildRowLoop t.schema.columns (cols.zip vals) [] with
    | error e => left; simp [insert, hlen, hb]
    | ok row0 =>
      cases hf : fillMissingLoop t.schema.columns row0 with
      | error e => left; simp [insert, hlen, hb, hf]
      | ok row1 =>
        right
        refine ⟨row0, row1, rfl, hf, ?_⟩
        rcases ha : autoAssign t row1 with ⟨row2, counter2⟩
        cases hi : indexInsertLoop row2 t.rows.length t.indexes with
        | error pr =>
          obtain ⟨ixs, colName⟩ := pr
          simp [insert, hlen, hb, hf, ha, hi]
        | ok ixs => simp [insert, hlen, hb, hf, ha, hi]
  · left; simp [insert, hlen]

/-- Dichotomy for the counter across one insert. -/
theorem insert_counter_cases (t : Table) (cols : List String) (vals : List Value) :
    (insert t cols vals).1.autoIncrement = t.autoIncrement ∨
      (insert t cols vals).1.autoIncrement = t.autoIncrement + 1 := by
  rcases insert_counter t cols vals with h | ⟨r0, r1, _, _, h⟩
  · exact Or.inl h
  · rw [h]; exact autoAssign_snd t r1

/-- A successful insert appends exactly the auto-assigned row. -/
theorem insert_success_rows (t : Table) (cols : List String) (vals : List Value)
    (h : (insert t cols vals).2.success = true) :
    ∃ row0 row1,
      buildRowLoop t.schema.columns (cols.zip vals) [] = .ok row0 ∧
      fillMissingLoop t.schema.columns row0 = .ok row1 ∧
      (insert t cols vals).1.rows = t.rows ++ [(autoAssign t row1).1] := by
  by_cases hlen : cols.length = vals.length
  · cases hb : buildRowLoop t.schema.columns (cols.zip vals) [] with
    | error e => rw [insert] at h; simp [hlen, hb] at h
    | ok row0 =>
      cases hf : fillMissingLoop t.schema.columns row0 with
      | error e => rw [insert] at h; simp [hlen, hb, hf] at h
      | ok row1 =>
        refine ⟨row0, row1, rfl, hf, ?_⟩
        rcases ha : autoAssign t row1 with ⟨row2, counter2⟩
        cases hi : indexInsertLoop row2 t.rows.length t.indexes with
        | error pr =>
          obtain ⟨ixs, colName⟩ := pr
          rw [insert] at h
          simp [hlen, hb, hf, ha, hi] at h
        | ok ixs => simp [insert, hlen, hb, hf, ha, hi]
  · rw [insert] at h; simp [hlen] at h

/-- UPDATE never touches the auto-increment counter. -/
theorem update_counter (t : Table) (u : List (String × Value))
    (c : Option (List Condition)) :
    (update t u c).1.autoIncrement = t.autoIncrement := by
  rcases h : updateLoop u c t.indexes [] t.rows 0 0 with ⟨r, ix, res⟩
  simp [update, h]

/-- DELETE never touches the auto-increment counter. -/
theorem delete_counter (t : Table) (c : Option (List Condition)) :
    (delete t c).1.autoIncrement = t.autoIncrement := rfl

/-- No statement decrements the counter. -/
theorem applyStmt_counter_mono (t : Table) (s : Stmt) :
    t.autoIncrement ≤ (applyStmt t s).autoIncrement := by
  cases s with
  | ins c v =>
    rcases insert_counter_cases t c v with h | h <;> simp [applyStmt, h]
  | upd u c => simp [applyStmt, update_counter]
  | del c => simp [applyStmt, delete_counter]

/-- First projection of a run step. -/
theorem run_cons_fst (t : Table) (s : Stmt) (rest : List Stmt) :
    (run t (s :: rest)).1 = (run (applyStmt t s) rest).1 := by
  rcases h : run (applyStmt t s) rest with ⟨tf, vs⟩
  simp [run, h]

/-- Second projection of a run step. -/
theorem run_cons_snd (t : Table) (s : Stmt) (rest : List Stmt) :
    (run t (s :: rest)).2 = assignedBy t s ++ (run (applyStmt t s) rest).2 := by
  rcases h : run (applyStmt t s) rest with ⟨tf, vs⟩
  simp [run, h]

/-- The counter never decreases across a run. -/
theorem run_counter_mono : ∀ (stmts : List Stmt) (t : Table),
    t.autoIncrement ≤ (run t stmts).1.autoIncrement := by
  intro stmts
  induction stmts with
  | nil => intro t; simp [run]
  | cons s rest ih =>
    intro t
    rw [run_cons_fst]
    exact le_trans (applyStmt_counter_mono t s) (ih (applyStmt t s))

/-- Every auto-assigned value stays strictly below the final counter. -/
theorem run_assigned_lt : ∀ (stmts : List Stmt) (t : Table) (v : Int),
    v ∈ (run t stmts).2 → v < (run t stmts).1.autoIncrement := by
  intro stmts
  induction stmts with
  | nil => intro t v hv; simp [run] at hv
  | cons s rest ih =>
    intro t v hv
    rw [run_cons_snd] at hv
    rw [run_cons_fst]
    rcases List.mem_append.1 hv with h | h
    · cases s with
      | ins c vals =>
        simp only [assignedBy] at h
        by_cases hb : (insert t c vals).1.autoIncrement ≠ t.autoIncrement
        · rw [if_pos hb] at h
          simp only [List.mem_singleton] at h
          subst h
          rcases insert_counter_cases t c vals with hc | hc
          · exact absurd hc hb
          · have hmono := run_counter_mono rest (applyStmt t (Stmt.ins c vals))
            have hstep : (applyStmt t (Stmt.ins c vals)).autoIncrement =
                t.autoIncrement + 1 := hc
            omega
        · rw [if_neg hb] at h; simp at h
      | upd u c => simp [assignedBy] at h
      | del c => simp [assignedBy] at h
    · exact ih (applyStmt t s) v h

/-! ### C8 -/

/-- C8: the auto-increment counter starts at 1 when the table is created;
across any statement sequence every auto-assigned primary-key value stays
strictly below the final counter; no statement ever decrements the
counter; each insert either leaves the counter alone and assigns nothing,
or assigns exactly the old counter value and increments by one; and on a
successful bumping insert the appended row carries the old counter as its
primary key. -/
theorem c8_autoIncrement_dominates_assigned (cols : List ColumnDefinition)
    (name : String) (stmts : List Stmt) :
    ((createTable cols name).autoIncrement = 1) ∧
    (∀ v ∈ (run (createTable cols name) stmts).2,
        v < (run (createTable cols name) stmts).1.autoIncrement) ∧
    (∀ (t : Table) (s : Stmt), t.autoIncrement ≤ (applyStmt t s).autoIncrement) ∧
    (∀ (t : Table) (c : List String) (vs : List Value),
        ((insert t c vs).1.autoIncrement = t.autoIncrement ∧
          assignedBy t (Stmt.ins c vs) = []) ∨
        ((insert t c vs).1.autoIncrement = t.autoIncrement + 1 ∧
          assignedBy t (Stmt.ins c vs) = [t.autoIncrement])) ∧
    (∀ (t : Table) (c : List String) (vs : List Value) (pk : String),
        t.schema.primaryKey = some pk →
        (insert t c vs).1.autoIncrement = t.autoIncrement + 1 →
        (insert t c vs).2.success = true →
        rowGet ((insert t c vs).1.rows.getLastD []) pk =
          some (Value.int t.autoIncrement)) := by
  refine ⟨rfl, fun v hv => run_assigned_lt stmts _ v hv, applyStmt_counter_mono,
    ?_, ?_⟩
  · intro t c vs
    rcases insert_counter_cases t c vs with h | h
    · left
      refine ⟨h, ?_⟩
      simp [assignedBy, h]
    · right
      have hne : (insert t c vs).1.autoIncrement ≠ t.autoIncrement := by
        rw [h]; omega
      refine ⟨h, ?_⟩
      simp [assignedBy, hne]
  · intro t c vs pk hpk hbump hsucc
    obtain ⟨row0, row1, hb, hf, hrows⟩ := insert_success_rows t c vs hsucc
    rcases insert_counter t c vs with hc | ⟨row0', row1', hb', hf', hc⟩
    · rw [hc] at hbump; omega
    · rw [hb] at hb'
      injection hb' with e0
      subst e0
      rw [hf] at hf'
      injection hf' with e1
      subst e1
      have hA : (autoAssign t row1).2 = t.autoIncrement + 1 := hc.symm.trans hbump
      obtain ⟨pk', hpk', hrow2, _, _⟩ :=
        autoAssign_of_bump t row1 (by rw [hA]; omega)
      rw [hpk] at hpk'
      injection hpk' with e2
      subst e2
      rw [hrows, List.getLastD_concat, hrow2, rowGet_rowSet]
      simp

/-- Witness for C8: creating (id INT PRIMARY KEY) and running one
auto-assigning insert yields the assignment list [1], a final counter
above it, and the assigned key stored in the appended row. -/
theorem c8_witness :
    ((1 : Int) ∈ (run (createTable
        [{ name := "id", type := .int, primaryKey := true, notNull := true }] "t")
        [Stmt.ins [] []]).2) ∧
    ((1 : Int) < (run (createTable
        [{ name := "id", type := .int, primaryKey := true, notNull := true }] "t")
        [Stmt.ins [] []]).1.autoIncrement) ∧
    (rowGet ((insert (createTable
        [{ name := "id", type := .int, primaryKey := true, notNull := true }] "t")
        [] []).1.rows.getLastD []) "id" = some (Value.int 1)) :=
  ⟨by decide,
    (c8_autoIncrement_dominates_assigned
      [{ name := "id", type := .int, primaryKey := true, notNull := true }] "t"
      [Stmt.ins [] []]).2.1 1 (by decide),
    (c8_autoIncrement_dominates_assigned
      [{ name := "id", type := .int, primaryKey := true, notNull := true }] "t"
      []).2.2.2.2 _ [] [] "id" (by decide) (by decide) (by decide)⟩

/-! ### C10 -/

/-- C10: an INSERT that supplies a non-null value for the primary-key
column leaves the auto-increment counter unchanged; conversely a moved
counter means the statement supplied no primary-key value or supplied
null; and concretely, after the explicit INSERT (id) VALUES (1) into
(id INT PRIMARY KEY) the counter still reads 1, so the next auto-assigned
insert picks 1 and fails with the uniqueness error. -/
theorem c10_explicit_pk_insert_preserves_counter :
    (∀ (t : Table) (cols : List String) (vals : List Value) (pk : String) (v : Value),
        t.schema.primaryKey = some pk →
        (insert t cols vals).2.success = true →
        suppliedValue (cols.zip vals) pk = some v → v ≠ Value.null →
        (insert t cols vals).1.autoIncrement = t.autoIncrement) ∧
    (∀ (t : Table) (cols : List String) (vals : List Value),
        (insert t cols vals).1.autoIncrement ≠ t.autoIncrement →
        ∃ pk, t.schema.primaryKey = some pk ∧
          (suppliedValue (cols.zip vals) pk = none ∨
            suppliedValue (cols.zip vals) pk = some Value.null)) ∧
    (c10Step1.2.success = true) ∧ (c10Step1.1.autoIncrement = 1) ∧
    (c10Step2.2.success = false) ∧
    (c10Step2.2.error = some "Duplicate value for unique column id") ∧
    (c10Step2.1.autoIncrement = 2) := by
  refine ⟨?_, ?_, by decide, by decide, by decide, by decide, by decide⟩
  · intro t cols vals pk v hpk _ hsupp hv
    rcases insert_counter t cols vals with h | ⟨row0, row1, hb, hf, hc⟩
    · exact h
    · have h0 : rowGet row0 pk = some v := by
        rw [buildRowLoop_get t.schema.columns (cols.zip vals) [] row0 pk hb, hsupp]
      have h1 : rowGet row1 pk = some v := fillMissingLoop_get_some _ _ _ _ _ hf h0
      rw [hc]
      exact autoAssign_snd_of_present t row1 pk v hpk h1 hv
  · intro t cols vals hne
    rcases insert_counter t cols vals with h | ⟨row0, row1, hb, hf, hc⟩
    · exact absurd h hne
    · rw [hc] at hne
      obtain ⟨pk, hpk, _, _, hcond⟩ := autoAssign_of_bump t row1 hne
      refine ⟨pk, hpk, ?_⟩
      cases hs : suppliedValue (cols.zip vals) pk with
      | none => exact Or.inl rfl
      | some w =>
        right
        have h0 : rowGet row0 pk = some w := by
          rw [buildRowLoop_get t.schema.columns (cols.zip vals) [] row0 pk hb, hs]
        have h1 : rowGet row1 pk = some w := fillMissingLoop_get_some _ _ _ _ _ hf h0
        rcases hcond with hcase | hcase
        · rw [rowHas, h1] at hcase; simp at hcase
        · rw [h1] at hcase
          injection hcase with e
          rw [e]

/-- Witness for C10: the explicit INSERT (id) VALUES (1) keeps the counter
at its pre-call value, and the failed auto-assigning insert that moved the
counter indeed supplied nothing for the key. -/
theorem c10_witness :
    ((insert c10T0 ["id"] [Value.int 1]).1.autoIncrement = c10T0.autoIncrement) ∧
    (∃ pk, c10Step1.1.schema.primaryKey = some pk ∧
      (suppliedValue (List.zip [] []) pk = none ∨
        suppliedValue (List.zip [] []) pk = some Value.null)) :=
  ⟨c10_explicit_pk_insert_preserves_counter.1 c10T0 ["id"] [Value.int 1] "id"
      (Value.int 1) (by decide) (by decide) (by decide) (by decide),
    c10_explicit_pk_insert_preserves_counter.2.1 c10Step1.1 [] [] (by decide)⟩

end WDB
